import Mathlib

/-!
Verification of the `paper_indexer` repository: a shallow embedding of the
data model and the pure control flow of `index.py`, `utils.py`, `query.py`
and the three fetchers, with theorems settling the specified claims.
-/

namespace PaperIndexer

/-! ## UTF-8 and MD5 (model of `paper_id.encode()` and `hashlib.md5`) -/

/-- UTF-8 encoding of a single character as its list of byte values. -/
def utf8EncodeChar (c : Char) : List Nat :=
  let n := c.toNat
  if n < 0x80 then [n]
  else if n < 0x800 then
    [0xC0 ||| (n >>> 6), 0x80 ||| (n &&& 0x3F)]
  else if n < 0x10000 then
    [0xE0 ||| (n >>> 12), 0x80 ||| ((n >>> 6) &&& 0x3F), 0x80 ||| (n &&& 0x3F)]
  else
    [0xF0 ||| (n >>> 18), 0x80 ||| ((n >>> 12) &&& 0x3F),
     0x80 ||| ((n >>> 6) &&& 0x3F), 0x80 ||| (n &&& 0x3F)]

/-- The UTF-8 bytes of a string: model of Python's `s.encode()`. -/
def utf8Encode (s : String) : List Nat :=
  (s.data.map utf8EncodeChar).flatten

/-- Truncation to a 32-bit word. -/
def w32 (n : Nat) : Nat := n % 4294967296

/-- 32-bit left rotation by `n` of a word `x < 2^32`. -/
def rotl32 (n x : Nat) : Nat := w32 ((x <<< n) ||| (x >>> (32 - n)))

/-- The MD5 sine-derived constant table `K` (RFC 1321). -/
def md5K : List Nat :=
  [0xd76aa478, 0xe8c7b756, 0x242070db, 0xc1bdceee,
   0xf57c0faf, 0x4787c62a, 0xa8304613, 0xfd469501,
   0x698098d8, 0x8b44f7af, 0xffff5bb1, 0x895cd7be,
   0x6b901122, 0xfd987193, 0xa679438e, 0x49b40821,
   0xf61e2562, 0xc040b340, 0x265e5a51, 0xe9b6c7aa,
   0xd62f105d, 0x02441453, 0xd8a1e681, 0xe7d3fbc8,
   0x21e1cde6, 0xc33707d6, 0xf4d50d87, 0x455a14ed,
   0xa9e3e905, 0xfcefa3f8, 0x676f02d9, 0x8d2a4c8a,
   0xfffa3942, 0x8771f681, 0x6d9d6122, 0xfde5380c,
   0xa4beea44, 0x4bdecfa9, 0xf6bb4b60, 0xbebfbc70,
   0x289b7ec6, 0xeaa127fa, 0xd4ef3085, 0x04881d05,
   0xd9d4d039, 0xe6db99e5, 0x1fa27cf8, 0xc4ac5665,
   0xf4292244, 0x432aff97, 0xab9423a7, 0xfc93a039,
   0x655b59c3, 0x8f0ccc92, 0xffeff47d, 0x85845dd1,
   0x6fa87e4f, 0xfe2ce6e0, 0xa3014314, 0x4e0811a1,
   0xf7537e82, 0xbd3af235, 0x2ad7d2bb, 0xeb86d391]

/-- The MD5 per-round left-rotation amounts (RFC 1321). -/
def md5S : List Nat :=
  [7, 12, 17, 22, 7, 12, 17, 22, 7, 12, 17, 22, 7, 12, 17, 22,
   5, 9, 14, 20, 5, 9, 14, 20, 5, 9, 14, 20, 5, 9, 14, 20,
   4, 11, 16, 23, 4, 11, 16, 23, 4, 11, 16, 23, 4, 11, 16, 23,
   6, 10, 15, 21, 6, 10, 15, 21, 6, 10, 15, 21, 6, 10, 15, 21]

/-- The MD5 nonlinear round function for round `i`. -/
def md5F (i b c d : Nat) : Nat :=
  if i < 16 then (b &&& c) ||| ((0xFFFFFFFF ^^^ b) &&& d)
  else if i < 32 then (d &&& b) ||| ((0xFFFFFFFF ^^^ d) &&& c)
  else if i < 48 then b ^^^ c ^^^ d
  else c ^^^ (b ||| (0xFFFFFFFF ^^^ d))

/-- The MD5 message-word index for round `i`. -/
def md5G (i : Nat) : Nat :=
  if i < 16 then i
  else if i < 32 then (5 * i + 1) % 16
  else if i < 48 then (3 * i + 5) % 16
  else (7 * i) % 16

/-- Little-endian byte decomposition: `k` bytes of `n`. -/
def leBytes : Nat → Nat → List Nat
  | 0, _ => []
  | k + 1, n => n % 256 :: leBytes k (n / 256)

/-- The `g`-th little-endian 32-bit word of a 64-byte block. -/
def md5Word (block : List Nat) (g : Nat) : Nat :=
  block.getD (4 * g) 0 + 256 * block.getD (4 * g + 1) 0 +
    65536 * block.getD (4 * g + 2) 0 + 16777216 * block.getD (4 * g + 3) 0

/-- One MD5 round: state `(a, b, c, d)` through round `i` on `block`. -/
def md5Round (block : List Nat) (st : Nat × Nat × Nat × Nat) (i : Nat) :
    Nat × Nat × Nat × Nat :=
  let (a, b, c, d) := st
  let f := w32 (md5F i b c d + a + md5K.getD i 0 + md5Word block (md5G i))
  (d, w32 (b + rotl32 (md5S.getD i 0) f), b, c)

/-- Process one 64-byte block: 64 rounds, then add into the running state. -/
def md5ProcessBlock (st : Nat × Nat × Nat × Nat) (block : List Nat) :
    Nat × Nat × Nat × Nat :=
  let (a, b, c, d) := (List.range 64).foldl (md5Round block) st
  (w32 (st.1 + a), w32 (st.2.1 + b), w32 (st.2.2.1 + c), w32 (st.2.2.2 + d))

/-- Split into 64-byte blocks, with structural fuel (one unit per block). -/
def chunksOf64Aux : Nat → List Nat → List (List Nat)
  | 0, _ => []
  | fuel + 1, bytes =>
    if bytes.isEmpty then []
    else bytes.take 64 :: chunksOf64Aux fuel (bytes.drop 64)

/-- Split a byte list into 64-byte blocks. -/
def chunksOf64 (bytes : List Nat) : List (List Nat) :=
  chunksOf64Aux bytes.length bytes

/-- MD5 padding for a message of `len` bytes: `0x80`, zeros to 56 mod 64,
then the bit length as 8 little-endian bytes. -/
def md5Padding (len : Nat) : List Nat :=
  0x80 :: List.replicate ((119 - len % 64) % 64) 0 ++ leBytes 8 ((len * 8) % 2 ^ 64)

/-- Hex digit character (lowercase) for `n < 16`. -/
def hexDigit (n : Nat) : Char :=
  if n < 10 then Char.ofNat (48 + n) else Char.ofNat (87 + n)

/-- Two lowercase hex characters of a byte. -/
def byteToHex (b : Nat) : List Char := [hexDigit (b / 16), hexDigit (b % 16)]

/-- Hex rendering of a 32-bit word, little-endian byte order as in digests. -/
def wordToHexLE (w : Nat) : List Char :=
  ((leBytes 4 w).map byteToHex).flatten

/-- MD5 hex digest of a byte list: model of `hashlib.md5(...).hexdigest()`. -/
def md5Hex (msg : List Nat) : String :=
  let padded := msg ++ md5Padding msg.length
  let st := (chunksOf64 padded).foldl md5ProcessBlock
    (0x67452301, 0xefcdab89, 0x98badcfe, 0x10325476)
  ⟨wordToHexLE st.1 ++ wordToHexLE st.2.1 ++ wordToHexLE st.2.2.1 ++ wordToHexLE st.2.2.2⟩

/-- Numeric value of a lowercase hex character. -/
def hexCharVal (c : Char) : Nat :=
  if 97 ≤ c.toNat then c.toNat - 87 else c.toNat - 48

/-- Parse a hex character list as a number: model of `int(h, 16)`. -/
def parseHex (cs : List Char) : Nat :=
  cs.foldl (fun acc c => 16 * acc + hexCharVal c) 0

/-- Model of `get_point_id` from `index.py`: MD5 of the UTF-8 bytes of `paper_id`,
first 16 hex characters of the digest parsed as an integer, reduced
modulo `2^63 - 1`. -/
def get_point_id (paper_id : String) : Nat :=
  parseHex ((md5Hex (utf8Encode paper_id)).data.take 16) % (2 ^ 63 - 1)

/-! ## Data model (`models.py`) and the batching loop (`index.py`) -/

/-- Model of `PaperMetadata` from `models.py` (optional fields default as there). -/
structure PaperMetadata where
  paper_id : String
  source : String
  title : String
  abstract : String
  authors : String
  update_date : String
  categories : List String := []
  doi : Option String := none
  journal_ref : Option String := none
  license : Option String := none
deriving Repr, DecidableEq

/-- Value of `CHUNK_SIZE` from `index.py`. -/
def CHUNK_SIZE : Nat := 100

/-- The accumulation loop shared by `_process_arxiv`,
`_process_biorxiv_medrxiv` and `_process_chemrxiv`: append each fetched
record to `chunk`, flush to `_upsert_chunk` once `len(chunk) >= CHUNK_SIZE`,
and flush the trailing chunk at stream end only if it is non-empty.
Returns the successive chunks passed to `_upsert_chunk`. -/
def processChunksAux {α : Type} : List α → List α → List (List α)
  | [], chunk => if chunk.isEmpty then [] else [chunk]
  | p :: rest, chunk =>
    let chunk' := chunk ++ [p]
    if CHUNK_SIZE ≤ chunk'.length then chunk' :: processChunksAux rest []
    else processChunksAux rest chunk'

/-- The chunks a full pipeline run flushes for a fetched record list. -/
def processChunks {α : Type} (papers : List α) : List (List α) :=
  processChunksAux papers []

/-! ## The vector store and the upsert pipeline (`index.py`) -/

/-- The vector store keyed by point id: model of the Qdrant collection.
`V` is the embedding-vector type. -/
def Store (V : Type) := Nat → Option (V × PaperMetadata)

/-- Upsert of a single point: overwrite-by-id semantics. -/
def upsertPoint {V : Type} (store : Store V) (id : Nat)
    (pt : V × PaperMetadata) : Store V :=
  fun k => if k = id then some pt else store k

/-- Model of `_upsert_chunk`: embed the records (a deterministic function `embed` of
the record, per `encode_documents`), then upsert one `PointStruct` per
record with `id = get_point_id(paper["paper_id"])`, the embedding as vector
and the record as payload. The `if not chunk: return` guard is the identity
on the store for an empty chunk. -/
def upsertChunk {V : Type} (embed : PaperMetadata → V) (store : Store V)
    (chunk : List PaperMetadata) : Store V :=
  chunk.foldl
    (fun st paper => upsertPoint st (get_point_id paper.paper_id) (embed paper, paper))
    store

/-- A full pipeline run over a fetched record list: the batching loop with
`_upsert_chunk` applied to each flushed chunk. -/
def runPipeline {V : Type} (embed : PaperMetadata → V) (store : Store V)
    (papers : List PaperMetadata) : Store V :=
  (processChunks papers).foldl (upsertChunk embed) store

/-- The last point written for key `k` by a record list, if any. -/
def lastWrite {V : Type} (embed : PaperMetadata → V) :
    List PaperMetadata → Nat → Option (V × PaperMetadata)
  | [], _ => none
  | p :: rest, k =>
    match lastWrite embed rest k with
    | some v => some v
    | none =>
      if k = get_point_id p.paper_id then some (embed p, p) else none

/-! ## `retry_request` (`utils.py`) -/

/-- Trace of one `retry_request` call: how many HTTP attempts were issued,
the seconds slept between attempts, and the outcome. `Except.error none`
models the synthetic `httpx.HTTPError("Request failed")` raised when the
loop body never ran; `Except.error (some e)` is a re-raised last
exception. -/
structure RetryTrace (E R : Type) where
  attempts : Nat
  waits : List ℚ
  result : Except (Option E) R

/-- The `for attempt in range(max_retries)` loop of `retry_request`:
`outcomes i` is what the `i`-th HTTP attempt does (`Except.error e` is a
caught `httpx` exception), `rem` the remaining iterations, and the third
argument the running `last_exception`. On a failure before the final
attempt it sleeps `backoff_factor * 2 ** attempt`; on the final attempt's
failure it re-raises the last exception. -/
def retryRequestAux {E R : Type} (outcomes : Nat → Except E R)
    (max_retries : Nat) (backoff_factor : ℚ) :
    Nat → Nat → Option E → RetryTrace E R
  | _, 0, last => ⟨0, [], Except.error last⟩
  | attempt, rem + 1, _ =>
    match outcomes attempt with
    | Except.ok r => ⟨1, [], Except.ok r⟩
    | Except.error e =>
      if attempt < max_retries - 1 then
        let t := retryRequestAux outcomes max_retries backoff_factor
          (attempt + 1) rem (some e)
        ⟨t.attempts + 1, backoff_factor * 2 ^ attempt :: t.waits, t.result⟩
      else ⟨1, [], Except.error (some e)⟩

/-- Model of `retry_request` from `utils.py` (defaults there: `max_retries=3`,
`backoff_factor=2.0`). -/
def retry_request {E R : Type} (outcomes : Nat → Except E R)
    (max_retries : Nat) (backoff_factor : ℚ) : RetryTrace E R :=
  retryRequestAux outcomes max_retries backoff_factor 0 max_retries none

/-! ## Dates and the snapshot fetcher (`fetchers/arxiv.py`) -/

/-- A calendar date: the value `datetime.fromisoformat` gives a
`YYYY-MM-DD` string. -/
structure Date where
  year : Nat
  month : Nat
  day : Nat
deriving Repr, DecidableEq

/-- Comparison of `datetime` values: lexicographic on (year, month, day). -/
def dateLt (a b : Date) : Bool :=
  Nat.blt a.year b.year ||
    (a.year == b.year &&
      (Nat.blt a.month b.month || (a.month == b.month && Nat.blt a.day b.day)))

/-- Split a character list on a separator character. -/
def splitOnChar (sep : Char) : List Char → List (List Char)
  | [] => [[]]
  | c :: rest =>
    match splitOnChar sep rest with
    | [] => if c = sep then [[], []] else [[c]]
    | grp :: groups =>
      if c = sep then [] :: grp :: groups else (c :: grp) :: groups

/-- Decimal digits to a number. -/
def digitsToNat (cs : List Char) : Nat :=
  cs.foldl (fun a c => 10 * a + (c.toNat - 48)) 0

/-- Model of `datetime.fromisoformat` on well-formed `YYYY-MM-DD` input. -/
def fromisoformat (s : String) : Date :=
  match splitOnChar (Char.ofNat 45) s.data with
  | [y, m, d] => ⟨digitsToNat y, digitsToNat m, digitsToNat d⟩
  | _ => ⟨0, 0, 0⟩

/-- Python truthiness of an optional string (`None` and `""` are falsy). -/
def strOptTruthy : Option String → Bool
  | none => false
  | some s => s != ""

/-- Model of `datetime.fromisoformat(d) if d else None` from `fetch_papers`. -/
def parseOptDate : Option String → Option Date
  | none => none
  | some s => if s = "" then none else some (fromisoformat s)

namespace ArxivFetcher

/-- The three per-record filters of `ArxivFetcher.fetch_papers`: a record
is kept unless an active filter drops it (`update_date < start`,
`update_date > end`, or a truthy `category` not among its categories). -/
def keepRecord (parsed_start parsed_end : Option Date)
    (category : Option String) (p : PaperMetadata) : Bool :=
  (match parsed_start with
   | some s => !dateLt (fromisoformat p.update_date) s
   | none => true) &&
  (match parsed_end with
   | some e => !dateLt e (fromisoformat p.update_date)
   | none => true) &&
  (match category with
   | some c => !(c != "" && !p.categories.contains c)
   | none => true)

/-- The line loop of `fetch_papers`: yield each record passing the active
filters, count it, and stop once `count >= limit` (filtered-out records do
not advance the count). -/
def fetchAux (parsed_start parsed_end : Option Date) (category : Option String)
    (limit : Nat) : List PaperMetadata → Nat → List PaperMetadata
  | [], _ => []
  | p :: rest, count =>
    if keepRecord parsed_start parsed_end category p then
      p :: (if limit ≤ count + 1 then []
            else fetchAux parsed_start parsed_end category limit rest (count + 1))
    else fetchAux parsed_start parsed_end category limit rest count

/-- Model of `ArxivFetcher.fetch_papers`: one top-to-bottom pass over the parsed
snapshot lines with the optional date and category filters and the result
limit (default 10000). -/
def fetch_papers (lines : List PaperMetadata)
    (start_date end_date category : Option String) (limit : Nat) :
    List PaperMetadata :=
  fetchAux (parseOptDate start_date) (parseOptDate end_date) category limit lines 0

end ArxivFetcher

/-! ## The offset-paged fetcher (`fetchers/chemrxiv.py`) -/

/-- Result of a paged fetch: the `(limit, skip)` parameters of each issued
request, and the records yielded. -/
structure FetchResult (β : Type) where
  requests : List (Nat × Nat)
  yielded : List β
deriving Repr, DecidableEq

namespace ChemrxivFetcher

/-- Model of `ChemrxivFetcher.fetch_papers`: loop while `cursor < limit`, request
`min(page_size, limit - cursor)` items at offset `cursor`
(`server reqLimit skip` is the parsed `itemHits` of the response, an
`Except.error` a request that still failed after retries, which is printed
and breaks the loop), yield each item through `_parse_record` (`parse`),
advance the cursor by the number of items actually returned, stop on an
empty page or a page shorter than `page_size`. -/
def fetch_papers {α β : Type} (parse : α → β)
    (server : Nat → Nat → Except Unit (List α))
    (limit page_size : Nat) (cursor : Nat) : FetchResult β :=
  if h : cursor < limit then
    match server (min page_size (limit - cursor)) cursor with
    | Except.error _ => ⟨[(min page_size (limit - cursor), cursor)], []⟩
    | Except.ok items =>
      if hemp : items.isEmpty then ⟨[(min page_size (limit - cursor), cursor)], []⟩
      else if items.length < page_size then
        ⟨[(min page_size (limit - cursor), cursor)], items.map parse⟩
      else
        let rest := fetch_papers parse server limit page_size (cursor + items.length)
        ⟨(min page_size (limit - cursor), cursor) :: rest.requests,
         items.map parse ++ rest.yielded⟩
  else ⟨[], []⟩
termination_by limit - cursor
decreasing_by
  have hlen0 : 0 < items.length := by
    cases items with
    | nil => simp at hemp
    | cons a l => simp
  omega

end ChemrxivFetcher

/-- A source backed by a fixed catalogue `L`: the page at offset `skip`
with requested size `reqLimit` is `L[skip : skip + reqLimit]`. -/
def takeDropServer {α : Type} (L : List α) (reqLimit skip : Nat) :
    Except Unit (List α) :=
  Except.ok ((L.drop skip).take reqLimit)

/-! ## The cursor-paged fetcher (`fetchers/biorxiv.py`) -/

/-- An entry of the `messages` array of a biorxiv/medrxiv response. -/
structure Msg where
  type : String
  cursor : Nat
deriving Repr, DecidableEq

/-- One parsed biorxiv/medrxiv response page. -/
structure BiorxivPage (α : Type) where
  collection : List α
  messages : List Msg
deriving Repr, DecidableEq

/-- Scan of the `messages` array for an entry whose `type` is
`"cursor_value"` (the next-cursor marker). -/
def hasCursorMsg (messages : List Msg) : Bool :=
  messages.any (fun m => m.type == "cursor_value")

/-- Result of a cursor-paged fetch: yielded records and requests issued. -/
structure BiorxivResult (β : Type) where
  yielded : List β
  requests : Nat
deriving Repr, DecidableEq

namespace BiorxivFetcher

/-- Model of `BiorxivFetcher.fetch_papers` over the successive responses the server
returns (the cursor extracted from the cursor-type message only feeds the
next request URL, so the response sequence is the loop's only input): per
page, stop on a failed request (printed, break) or an empty `collection`;
otherwise yield every item of `collection` through `_parse_record`
(`parse`), then continue only if some message has type `"cursor_value"`.
`requests` counts the issued page requests. -/
def fetch_papers {α β : Type} (parse : α → β) :
    List (Except Unit (BiorxivPage α)) → BiorxivResult β
  | [] => ⟨[], 0⟩
  | Except.error _ :: _ => ⟨[], 1⟩
  | Except.ok page :: rest =>
    if page.collection.isEmpty then ⟨[], 1⟩
    else if hasCursorMsg page.messages then
      let r := fetch_papers parse rest
      ⟨page.collection.map parse ++ r.yielded, r.requests + 1⟩
    else ⟨page.collection.map parse, 1⟩

end BiorxivFetcher

/-! ## The query builder (`query.py`) -/

/-- Python truthiness of an optional string list (`None`, `[]` falsy). -/
def listOptTruthy : Option (List String) → Bool
  | none => false
  | some l => !l.isEmpty

/-- The argument list of `query` (all structured constraints optional). -/
structure QueryArgs where
  paper_id : Option String := none
  source : Option String := none
  authors : Option String := none
  title : Option String := none
  abstract : Option String := none
  min_update_date : Option String := none
  max_update_date : Option String := none
  categories : Option (List String) := none
  arxiv_id : Option String := none
  arxiv_categories : Option (List String) := none
deriving Repr, DecidableEq

/-- A `FieldCondition` as built by `query`: match-value on `paper_id` or
`source`, full-text match on `authors` / `title` / `abstract`, a
`DatetimeRange` on `update_date` with the `gte` / `lte` bounds that were
set, or a match-any on `categories`. -/
inductive FieldCond where
  | paperIdEq (v : String)
  | sourceEq (v : String)
  | authorsText (t : String)
  | titleText (t : String)
  | abstractText (t : String)
  | updateDateRange (gte lte : Option String)
  | categoriesAny (vs : List String)
deriving Repr, DecidableEq

/-- Model of `must_conditions` as accumulated by `query`: the legacy aliases
`arxiv_id` / `arxiv_categories` first overwrite `paper_id` / `categories`
when truthy, then one condition is appended per truthy constraint, the
date bounds folded into a single `DatetimeRange` condition. -/
def must_conditions (args : QueryArgs) : List FieldCond :=
  let paper_id := if strOptTruthy args.arxiv_id then args.arxiv_id else args.paper_id
  let categories :=
    if listOptTruthy args.arxiv_categories then args.arxiv_categories
    else args.categories
  (if strOptTruthy paper_id then [FieldCond.paperIdEq (paper_id.getD "")] else []) ++
  (if strOptTruthy args.source then [FieldCond.sourceEq (args.source.getD "")] else []) ++
  (if strOptTruthy args.authors then [FieldCond.authorsText (args.authors.getD "")] else []) ++
  (if strOptTruthy args.title then [FieldCond.titleText (args.title.getD "")] else []) ++
  (if strOptTruthy args.abstract then [FieldCond.abstractText (args.abstract.getD "")] else []) ++
  (if strOptTruthy args.min_update_date || strOptTruthy args.max_update_date then
    [FieldCond.updateDateRange
      (if strOptTruthy args.min_update_date then args.min_update_date else none)
      (if strOptTruthy args.max_update_date then args.max_update_date else none)]
   else []) ++
  (if listOptTruthy categories then [FieldCond.categoriesAny (categories.getD [])] else [])

/-- Model of `query_filter` from `query.py`: `Filter(must=must_conditions)` when any
condition was built, otherwise no filter at all. -/
def query_filter (args : QueryArgs) : Option (List FieldCond) :=
  let cs := must_conditions args
  if cs.isEmpty then none else some cs

/-- Modelled from the spec: Qdrant's documented semantics of one
`FieldCondition` on a payload — `MatchValue` is equality, `MatchText` the
store's full-text match (`matchText field text`), `DatetimeRange` the
`gte`/`lte` bounds under the store's datetime order (`dateLe a b` meaning
`a <= b`), `MatchAny` membership of any listed value. -/
def evalCond (matchText : String → String → Bool)
    (dateLe : String → String → Bool) (r : PaperMetadata) : FieldCond → Bool
  | FieldCond.paperIdEq v => r.paper_id == v
  | FieldCond.sourceEq v => r.source == v
  | FieldCond.authorsText t => matchText r.authors t
  | FieldCond.titleText t => matchText r.title t
  | FieldCond.abstractText t => matchText r.abstract t
  | FieldCond.updateDateRange gte lte =>
    (match gte with | some g => dateLe g r.update_date | none => true) &&
    (match lte with | some l => dateLe r.update_date l | none => true)
  | FieldCond.categoriesAny vs => vs.any (fun v => r.categories.contains v)

/-- Modelled from the spec: Qdrant's documented semantics of
`Filter(must=...)` — the conjunction of its conditions; no filter matches
everything. -/
def evalFilter (matchText : String → String → Bool)
    (dateLe : String → String → Bool) (r : PaperMetadata) :
    Option (List FieldCond) → Bool
  | none => true
  | some cs => cs.all (evalCond matchText dateLe r)

/-- Modelled from the spec: "a single filter expression that is the logical
conjunction (AND) of every constraint the caller actually supplied" — one
conjunct per supplied (truthy) constraint, after the legacy aliases are
applied, and no conjunct for an omitted one. -/
def suppliedConj (matchText : String → String → Bool)
    (dateLe : String → String → Bool) (args : QueryArgs)
    (r : PaperMetadata) : Bool :=
  let paper_id := if strOptTruthy args.arxiv_id then args.arxiv_id else args.paper_id
  let categories :=
    if listOptTruthy args.arxiv_categories then args.arxiv_categories
    else args.categories
  (if strOptTruthy paper_id then r.paper_id == paper_id.getD "" else true) &&
  (if strOptTruthy args.source then r.source == args.source.getD "" else true) &&
  (if strOptTruthy args.authors then matchText r.authors (args.authors.getD "") else true) &&
  (if strOptTruthy args.title then matchText r.title (args.title.getD "") else true) &&
  (if strOptTruthy args.abstract then matchText r.abstract (args.abstract.getD "") else true) &&
  (if strOptTruthy args.min_update_date then
    dateLe (args.min_update_date.getD "") r.update_date else true) &&
  (if strOptTruthy args.max_update_date then
    dateLe r.update_date (args.max_update_date.getD "") else true) &&
  (if listOptTruthy categories then
    (categories.getD []).any (fun v => r.categories.contains v) else true)

/-- The `QueryArgs` value with every constraint omitted. -/
def emptyQueryArgs : QueryArgs :=
  ⟨none, none, none, none, none, none, none, none, none, none⟩

/-! ## The `index` entry point (`index.py`) -/

/-- The externally visible steps `index` performs, in order: construct the
embedder (`GemmaEmbedder()` loads the sentence-transformers model),
construct the Qdrant client, `_ensure_collection` (which issues
`collection_exists` and possibly `create_collection` /
`create_payload_index` calls to the store), then one processing run
(fetcher construction, fetching and upserting) for the chosen source. -/
inductive IndexAction where
  | initEmbedder
  | initClient
  | ensureCollection
  | processArxiv (start_date end_date category : Option String)
  | processBiorxivMedrxiv (server start_date end_date : String) (category : Option String)
  | processChemrxiv (search_term : Option String) (limit : Nat)
deriving Repr, DecidableEq

/-- Steps of `index` that issue network requests before any dispatch
validation could stop them: `_ensure_collection` always sends at least a
`collection_exists` request to the Qdrant server, and the processing steps
fetch from the source API and upsert into the store. (Constructing the
client object alone is not counted, and the embedder download may be
cached.) -/
def isNetworkStep : IndexAction → Bool
  | IndexAction.ensureCollection => true
  | IndexAction.processArxiv _ _ _ => true
  | IndexAction.processBiorxivMedrxiv _ _ _ _ => true
  | IndexAction.processChemrxiv _ _ => true
  | _ => false

/-- Steps of `index` that construct a fetcher, fetch records or upsert
points (the `_process_*` helpers do all three). -/
def isProcessStep : IndexAction → Bool
  | IndexAction.processArxiv _ _ _ => true
  | IndexAction.processBiorxivMedrxiv _ _ _ _ => true
  | IndexAction.processChemrxiv _ _ => true
  | _ => false

/-- Model of `index` from `index.py`: the steps performed in order and the outcome
(`Except.error` is a raised `ValueError`). The embedder, client and
collection setup always run first; then the source dispatch either
validates and processes or raises. -/
def index (source : String) (start_date end_date query category : Option String)
    (max_results : Nat) : List IndexAction × Except String Unit :=
  let pre := [IndexAction.initEmbedder, IndexAction.initClient,
    IndexAction.ensureCollection]
  if source == "arxiv" then
    (pre ++ [IndexAction.processArxiv start_date end_date category], Except.ok ())
  else if source == "biorxiv" then
    if !strOptTruthy start_date || !strOptTruthy end_date then
      (pre, Except.error "biorxiv requires start_date and end_date (YYYY-MM-DD)")
    else
      (pre ++ [IndexAction.processBiorxivMedrxiv "biorxiv" (start_date.getD "")
        (end_date.getD "") category], Except.ok ())
  else if source == "medrxiv" then
    if !strOptTruthy start_date || !strOptTruthy end_date then
      (pre, Except.error "medrxiv requires start_date and end_date (YYYY-MM-DD)")
    else
      (pre ++ [IndexAction.processBiorxivMedrxiv "medrxiv" (start_date.getD "")
        (end_date.getD "") category], Except.ok ())
  else if source == "chemrxiv" then
    (pre ++ [IndexAction.processChemrxiv query max_results], Except.ok ())
  else
    (pre, Except.error ("Unknown source: " ++ source))

/-- A sample arXiv snapshot record with the given id and update date. -/
def arxivSample (pid d : String) : PaperMetadata :=
  ⟨pid, "arxiv", "t", "a", "au", d, [], none, none, none⟩

/-! ## Theorems -/

set_option maxRecDepth 4000

/-- RFC 1321 test vector: the MD5 digest of the empty message. -/
theorem md5Hex_empty : md5Hex [] = "d41d8cd98f00b204e9800998ecf8427e" := by decide

/-- RFC 1321 test vector: the MD5 digest of `"abc"`. -/
theorem md5Hex_abc :
    md5Hex (utf8Encode "abc") = "900150983cd24fb0d6963f7d28e17f72" := by decide

/-- C1: `get_point_id` is total and deterministic on every string (the
empty string included): it returns a value strictly below `2^63 - 1` —
being the MD5-based hash value reduced modulo `2^63 - 1` by definition —
and two calls on the same string agree. -/
theorem get_point_id_spec (s : String) :
    get_point_id s < 2 ^ 63 - 1 ∧ get_point_id s = get_point_id s :=
  ⟨Nat.mod_lt _ (by norm_num), rfl⟩

theorem processChunksAux_spec {α : Type} (papers : List α) :
    ∀ chunk : List α, chunk.length < CHUNK_SIZE →
      (processChunksAux papers chunk).flatten = chunk ++ papers ∧
      (processChunksAux papers chunk).map List.length =
        List.replicate ((chunk.length + papers.length) / CHUNK_SIZE) CHUNK_SIZE ++
          (if (chunk.length + papers.length) % CHUNK_SIZE = 0 then []
           else [(chunk.length + papers.length) % CHUNK_SIZE]) := by
  induction papers with
  | nil =>
    intro chunk h
    cases chunk with
    | nil => simp [processChunksAux, CHUNK_SIZE]
    | cons x xs =>
      refine ⟨by simp [processChunksAux], ?_⟩
      have h1 : (x :: xs).length / CHUNK_SIZE = 0 := Nat.div_eq_of_lt h
      have h2 : (x :: xs).length % CHUNK_SIZE = (x :: xs).length := Nat.mod_eq_of_lt h
      simp only [List.length_nil, Nat.add_zero, h1, h2, List.replicate_zero,
        List.nil_append]
      simp [processChunksAux]
  | cons p rest ih =>
    intro chunk h
    by_cases hc : CHUNK_SIZE ≤ (chunk ++ [p]).length
    · have hlen : (chunk ++ [p]).length = CHUNK_SIZE := by
        simp [CHUNK_SIZE] at h hc ⊢; omega
      obtain ⟨ih1, ih2⟩ := ih [] (by simp [CHUNK_SIZE])
      refine ⟨?_, ?_⟩
      · simp only [processChunksAux, if_pos hc, List.flatten_cons, ih1]
        simp
      · simp only [processChunksAux, if_pos hc, List.map_cons, ih2]
        have h3 : (chunk.length + (p :: rest).length) / CHUNK_SIZE =
            (List.length ([] : List α) + rest.length) / CHUNK_SIZE + 1 := by
          simp only [List.length_cons, List.length_nil]
          simp only [List.length_append, List.length_cons, List.length_nil] at hlen
          simp only [CHUNK_SIZE] at *
          omega
        have h4 : (chunk.length + (p :: rest).length) % CHUNK_SIZE =
            (List.length ([] : List α) + rest.length) % CHUNK_SIZE := by
          simp only [List.length_cons, List.length_nil]
          simp only [List.length_append, List.length_cons, List.length_nil] at hlen
          simp only [CHUNK_SIZE] at *
          omega
        rw [hlen, h3, h4, List.replicate_succ, List.cons_append]
    · have hlt : (chunk ++ [p]).length < CHUNK_SIZE := by omega
      obtain ⟨ih1, ih2⟩ := ih (chunk ++ [p]) hlt
      refine ⟨?_, ?_⟩
      · simp only [processChunksAux, if_neg hc, ih1]
        simp
      · simp only [processChunksAux, if_neg hc, ih2]
        have h5 : (chunk ++ [p]).length + rest.length =
            chunk.length + (p :: rest).length := by
          simp; omega
        rw [h5]

/-- C3: the pipeline flushes a batch exactly when the accumulated chunk
reaches `CHUNK_SIZE = 100`, flushes the trailing partial batch iff it is
non-empty, drops no record, and for 250 fetched records issues exactly the
3 upsert chunks of sizes 100, 100, 50 in that order. -/
theorem pipeline_batching_spec :
    (∀ (α : Type) (papers : List α),
      (processChunks papers).flatten = papers ∧
      (processChunks papers).map List.length =
        List.replicate (papers.length / CHUNK_SIZE) CHUNK_SIZE ++
          (if papers.length % CHUNK_SIZE = 0 then []
           else [papers.length % CHUNK_SIZE]) ∧
      ∀ c ∈ processChunks papers, c ≠ []) ∧
    (processChunks (List.range 250)).map List.length = [100, 100, 50] := by
  have main : ∀ (α : Type) (papers : List α),
      (processChunks papers).flatten = papers ∧
      (processChunks papers).map List.length =
        List.replicate (papers.length / CHUNK_SIZE) CHUNK_SIZE ++
          (if papers.length % CHUNK_SIZE = 0 then []
           else [papers.length % CHUNK_SIZE]) := by
    intro α papers
    have h := processChunksAux_spec papers ([] : List α) (by simp [CHUNK_SIZE])
    simpa [processChunks] using h
  refine ⟨fun α papers => ⟨(main α papers).1, (main α papers).2, ?_⟩, ?_⟩
  · intro c hc hnil
    have h2 := (main α papers).2
    have : (0 : Nat) ∈ (processChunks papers).map List.length := by
      exact List.mem_map.mpr ⟨c, hc, by simp [hnil]⟩
    rw [h2] at this
    rcases List.mem_append.mp this with h | h
    · have := List.eq_of_mem_replicate h
      simp [CHUNK_SIZE] at this
    · by_cases hz : papers.length % CHUNK_SIZE = 0
      · simp [hz] at h
      · simp [hz] at h
        omega
  · rw [(main Nat (List.range 250)).2]
    simp [CHUNK_SIZE]

/-- Witness for C3: for the one-record stream the single flushed chunk is
non-empty. -/
theorem pipeline_batching_spec_witness :
    ([0] : List Nat) ∈ processChunks [0] ∧ ([0] : List Nat) ≠ [] :=
  ⟨by decide, (pipeline_batching_spec.1 Nat [0]).2.2 [0] (by decide)⟩

theorem upsertChunk_append {V : Type} (embed : PaperMetadata → V)
    (store : Store V) (c₁ c₂ : List PaperMetadata) :
    upsertChunk embed store (c₁ ++ c₂) =
      upsertChunk embed (upsertChunk embed store c₁) c₂ := by
  simp [upsertChunk, List.foldl_append]

theorem runPipeline_eq_upsertChunk {V : Type} (embed : PaperMetadata → V)
    (store : Store V) (papers : List PaperMetadata) :
    runPipeline embed store papers = upsertChunk embed store papers := by
  have hflat : (processChunks papers).flatten = papers := by
    have h := processChunksAux_spec papers ([] : List PaperMetadata)
      (by simp [CHUNK_SIZE])
    simpa [processChunks] using h.1
  conv_rhs => rw [← hflat]
  rw [runPipeline]
  generalize processChunks papers = chunks
  induction chunks generalizing store with
  | nil => simp [upsertChunk]
  | cons c cs ih =>
    rw [List.foldl_cons, ih, List.flatten_cons, upsertChunk_append]

theorem upsertChunk_eq_lastWrite {V : Type} (embed : PaperMetadata → V)
    (store : Store V) (papers : List PaperMetadata) (k : Nat) :
    upsertChunk embed store papers k =
      match lastWrite embed papers k with
      | some v => some v
      | none => store k := by
  induction papers generalizing store with
  | nil => simp [upsertChunk, lastWrite]
  | cons p rest ih =>
    rw [upsertChunk, List.foldl_cons]
    rw [show List.foldl _ (upsertPoint store (get_point_id p.paper_id) (embed p, p)) rest =
      upsertChunk embed (upsertPoint store (get_point_id p.paper_id) (embed p, p)) rest from rfl]
    rw [ih, lastWrite]
    cases lastWrite embed rest k with
    | some v => rfl
    | none =>
      simp only [upsertPoint]
      by_cases hk : k = get_point_id p.paper_id <;> simp [hk]

/-- C2: ingestion is idempotent — running the pipeline twice over the same
fetched record list leaves the store with exactly the same points (ids,
vectors and payloads) as running it once, because each record's point id
is a function of its `paper_id` alone and upsert overwrites by id. -/
theorem pipeline_idempotent {V : Type} (embed : PaperMetadata → V)
    (store : Store V) (papers : List PaperMetadata) (k : Nat) :
    runPipeline embed (runPipeline embed store papers) papers k =
      runPipeline embed store papers k := by
  rw [runPipeline_eq_upsertChunk, runPipeline_eq_upsertChunk]
  rw [upsertChunk_eq_lastWrite, upsertChunk_eq_lastWrite]
  cases lastWrite embed papers k <;> rfl

theorem range_map_succ {β : Type} (f : Nat → β) (k : Nat) :
    (List.range (k + 1)).map f = f 0 :: (List.range k).map (fun i => f (i + 1)) := by
  rw [List.range_succ_eq_map, List.map_cons, List.map_map]
  rfl

theorem retryRequestAux_spec {E R : Type} (outcomes : Nat → Except E R)
    (max_retries : Nat) (backoff_factor : ℚ) :
    ∀ (rem attempt : Nat) (last : Option E) (t : RetryTrace E R),
      retryRequestAux outcomes max_retries backoff_factor attempt rem last = t →
      attempt + rem = max_retries → 1 ≤ rem →
      1 ≤ t.attempts ∧ t.attempts ≤ rem ∧
      t.waits = (List.range (t.attempts - 1)).map
        (fun i => backoff_factor * 2 ^ (attempt + i)) ∧
      (∀ i, i < t.attempts - 1 → ∃ e, outcomes (attempt + i) = Except.error e) ∧
      (∀ r, t.result = Except.ok r →
        outcomes (attempt + t.attempts - 1) = Except.ok r) ∧
      (∀ o, t.result = Except.error o →
        attempt + t.attempts = max_retries ∧
        ∃ e, o = some e ∧ outcomes (max_retries - 1) = Except.error e) := by
  intro rem
  induction rem with
  | zero => intro attempt last t ht hsum hrem; exact absurd hrem (by omega)
  | succ rem ih =>
    intro attempt last t ht hsum hrem
    simp only [retryRequestAux] at ht
    cases ho : outcomes attempt with
    | ok r =>
      rw [ho] at ht
      subst ht
      refine ⟨by simp, by simp, by simp, by simp, ?_, ?_⟩
      · intro r' hr'
        simp at hr'
        subst hr'
        simpa using ho
      · intro o hob
        simp at hob
    | error e =>
      rw [ho] at ht
      dsimp only at ht
      by_cases hlt : attempt < max_retries - 1
      · rw [if_pos hlt] at ht
        obtain ⟨ih1, ih2, ih3, ih4, ih5, ih6⟩ := ih (attempt + 1) (some e)
          (retryRequestAux outcomes max_retries backoff_factor (attempt + 1) rem (some e))
          rfl (by omega) (by omega)
        set t' := retryRequestAux outcomes max_retries backoff_factor
          (attempt + 1) rem (some e) with ht'
        subst ht
        dsimp only
        refine ⟨by omega, by omega, ?_, ?_, ?_, ?_⟩
        · obtain ⟨k, hk⟩ : ∃ k, t'.attempts = k + 1 := ⟨t'.attempts - 1, by omega⟩
          rw [ih3, hk]
          simp only [Nat.add_sub_cancel]
          rw [range_map_succ (fun i => backoff_factor * 2 ^ (attempt + i)) k]
          simp only [Nat.add_zero]
          congr 1
          apply List.map_congr_left
          intro i _
          rw [show attempt + 1 + i = attempt + (i + 1) from by omega]
        · intro i hi
          simp only [Nat.add_sub_cancel] at hi
          cases i with
          | zero => exact ⟨e, by simpa using ho⟩
          | succ j =>
            obtain ⟨e', he'⟩ := ih4 j (by omega)
            refine ⟨e', ?_⟩
            rw [show attempt + (j + 1) = attempt + 1 + j from by omega]
            exact he'
        · intro r hr
          have := ih5 r hr
          rw [show attempt + (t'.attempts + 1) - 1 =
            attempt + 1 + t'.attempts - 1 from by omega]
          exact this
        · intro o ho'
          obtain ⟨h1, h2⟩ := ih6 o ho'
          exact ⟨by omega, h2⟩
      · rw [if_neg hlt] at ht
        subst ht
        have hattempt : attempt + 1 = max_retries := by omega
        dsimp only
        refine ⟨by omega, by omega, by simp, by simp, ?_, ?_⟩
        · intro r hr
          simp at hr
        · intro o hob
          simp only [Except.error.injEq] at hob
          refine ⟨by omega, e, hob.symm, ?_⟩
          rw [show max_retries - 1 = attempt from by omega]
          exact ho

/-- C4: `retry_request` issues at most `max_retries` HTTP attempts; after
each failed attempt other than the last it waits
`backoff_factor * 2 ** attempt` seconds (attempt counted from 0, so the
default `backoff_factor = 2.0` gives the waits 2, 4, 8, ...); a returned
response is the genuine response of the last attempt made, and when the
last attempt fails it re-raises that attempt's error — it never returns a
partial or synthetic response. -/
theorem retry_request_spec {E R : Type} (outcomes : Nat → Except E R)
    (max_retries : Nat) (backoff_factor : ℚ) (h : 1 ≤ max_retries) :
    1 ≤ (retry_request outcomes max_retries backoff_factor).attempts ∧
    (retry_request outcomes max_retries backoff_factor).attempts ≤ max_retries ∧
    (retry_request outcomes max_retries backoff_factor).waits =
      (List.range ((retry_request outcomes max_retries backoff_factor).attempts - 1)).map
        (fun i => backoff_factor * 2 ^ i) ∧
    (∀ i, i < (retry_request outcomes max_retries backoff_factor).attempts - 1 →
      ∃ e, outcomes i = Except.error e) ∧
    (∀ r, (retry_request outcomes max_retries backoff_factor).result = Except.ok r →
      outcomes ((retry_request outcomes max_retries backoff_factor).attempts - 1) =
        Except.ok r) ∧
    (∀ o, (retry_request outcomes max_retries backoff_factor).result = Except.error o →
      (retry_request outcomes max_retries backoff_factor).attempts = max_retries ∧
      ∃ e, o = some e ∧ outcomes (max_retries - 1) = Except.error e) := by
  have H := retryRequestAux_spec outcomes max_retries backoff_factor max_retries 0 none
    (retry_request outcomes max_retries backoff_factor) rfl (by omega) h
  simpa [retry_request] using H

/-- Witness for C4 at `max_retries = 3`, `backoff_factor = 2`, every
attempt failing. -/
theorem retry_request_spec_witness :
    (1 : Nat) ≤ 3 ∧
    (1 ≤ (retry_request (fun i => (Except.error i : Except Nat Nat)) 3 2).attempts ∧
    (retry_request (fun i => (Except.error i : Except Nat Nat)) 3 2).attempts ≤ 3 ∧
    (retry_request (fun i => (Except.error i : Except Nat Nat)) 3 2).waits =
      (List.range ((retry_request (fun i => (Except.error i : Except Nat Nat)) 3 2).attempts - 1)).map
        (fun i => (2 : ℚ) * 2 ^ i) ∧
    (∀ i, i < (retry_request (fun i => (Except.error i : Except Nat Nat)) 3 2).attempts - 1 →
      ∃ e, (fun i => (Except.error i : Except Nat Nat)) i = Except.error e) ∧
    (∀ r, (retry_request (fun i => (Except.error i : Except Nat Nat)) 3 2).result = Except.ok r →
      (fun i => (Except.error i : Except Nat Nat))
        ((retry_request (fun i => (Except.error i : Except Nat Nat)) 3 2).attempts - 1) =
        Except.ok r) ∧
    (∀ o, (retry_request (fun i => (Except.error i : Except Nat Nat)) 3 2).result = Except.error o →
      (retry_request (fun i => (Except.error i : Except Nat Nat)) 3 2).attempts = 3 ∧
      ∃ e, o = some e ∧ (fun i => (Except.error i : Except Nat Nat)) (3 - 1) = Except.error e)) :=
  ⟨by decide, retry_request_spec (fun i => (Except.error i : Except Nat Nat)) 3 2 (by decide)⟩

theorem arxivFetchAux_take (parsed_start parsed_end : Option Date)
    (category : Option String) (limit : Nat) :
    ∀ (lines : List PaperMetadata) (count : Nat), count < limit →
      ArxivFetcher.fetchAux parsed_start parsed_end category limit lines count =
        (lines.filter
          (ArxivFetcher.keepRecord parsed_start parsed_end category)).take
          (limit - count) := by
  intro lines
  induction lines with
  | nil => intro count h; simp [ArxivFetcher.fetchAux]
  | cons p rest ih =>
    intro count hcount
    cases hk : ArxivFetcher.keepRecord parsed_start parsed_end category p with
    | false =>
      simp [ArxivFetcher.fetchAux, List.filter_cons, hk, ih count hcount]
    | true =>
      by_cases hstop : limit ≤ count + 1
      · have hlc : limit - count = 1 := by omega
        simp [ArxivFetcher.fetchAux, List.filter_cons, hk, hstop, hlc]
      · have h2 : limit - count = (limit - (count + 1)) + 1 := by omega
        simp [ArxivFetcher.fetchAux, List.filter_cons, hk, hstop, h2,
          ih (count + 1) (by omega)]

/-- C5: `ArxivFetcher.fetch_papers` scans the snapshot lines top to bottom
in one pass, drops every record that fails an active filter
(`update_date >= start_date`, `update_date <= end_date`, category
membership) without letting it count toward the limit, and stops after
emitting `limit` records or at end of file — i.e. it yields exactly the
first `limit` records of the filtered stream. -/
theorem arxiv_fetch_papers_spec (lines : List PaperMetadata)
    (start_date end_date category : Option String) (limit : Nat)
    (h : 1 ≤ limit) :
    ArxivFetcher.fetch_papers lines start_date end_date category limit =
      (lines.filter (ArxivFetcher.keepRecord (parseOptDate start_date)
        (parseOptDate end_date) category)).take limit := by
  rw [ArxivFetcher.fetch_papers, arxivFetchAux_take _ _ _ _ _ 0 (by omega),
    Nat.sub_zero]

/-- Witness for C5 at the spec's concrete instance: of the records dated
2023-01-01, 2023-06-01 and 2024-01-01, the window
`start_date=2023-03-01, end_date=2023-12-31` keeps only the middle one. -/
theorem arxiv_fetch_papers_spec_witness :
    (1 : Nat) ≤ 10000 ∧
    ArxivFetcher.fetch_papers
      [arxivSample "p1" "2023-01-01", arxivSample "p2" "2023-06-01",
       arxivSample "p3" "2024-01-01"]
      (some "2023-03-01") (some "2023-12-31") none 10000 =
      [arxivSample "p2" "2023-06-01"] :=
  ⟨by decide, by
    rw [arxiv_fetch_papers_spec _ _ _ _ _ (by decide)]
    rfl⟩

theorem chemrxivFetchAux_spec {α β : Type} (parse : α → β) (L : List α)
    (limit page_size : Nat) (hp : 0 < page_size) (hlim : L.length ≤ limit) :
    ∀ (cursor : Nat), (L.length - cursor) % page_size ≠ 0 →
      (ChemrxivFetcher.fetch_papers parse (takeDropServer L) limit page_size
        cursor).yielded = (L.drop cursor).map parse ∧
      (ChemrxivFetcher.fetch_papers parse (takeDropServer L) limit page_size
        cursor).requests.length = (L.length - cursor) / page_size + 1 ∧
      ∀ q ∈ (ChemrxivFetcher.fetch_papers parse (takeDropServer L) limit page_size
        cursor).requests, q.2 < L.length := by
  have main : ∀ (d cursor : Nat), L.length - cursor = d →
      (L.length - cursor) % page_size ≠ 0 →
      (ChemrxivFetcher.fetch_papers parse (takeDropServer L) limit page_size
        cursor).yielded = (L.drop cursor).map parse ∧
      (ChemrxivFetcher.fetch_papers parse (takeDropServer L) limit page_size
        cursor).requests.length = (L.length - cursor) / page_size + 1 ∧
      ∀ q ∈ (ChemrxivFetcher.fetch_papers parse (takeDropServer L) limit page_size
        cursor).requests, q.2 < L.length := by
    intro d
    induction d using Nat.strong_induction_on with
    | _ d ih =>
    intro cursor hd hmod
    have hcN : cursor < L.length := by
      rcases Nat.lt_or_ge cursor L.length with h | h
      · exact h
      · exfalso
        apply hmod
        have h0 : L.length - cursor = 0 := by omega
        rw [h0]
        simp
    have hcl : cursor < limit := by omega
    have hdropLen : (L.drop cursor).length = L.length - cursor := by simp
    rw [ChemrxivFetcher.fetch_papers, dif_pos hcl]
    dsimp only [takeDropServer]
    set items := (L.drop cursor).take (min page_size (limit - cursor)) with hitems
    have hlen_items : items.length =
        min (min page_size (limit - cursor)) (L.length - cursor) := by
      rw [hitems, List.length_take, hdropLen]
    by_cases hshort : L.length - cursor < page_size
    · have hlen2 : items.length = L.length - cursor := by omega
      have hne' : items.isEmpty = false := by
        cases hit : items with
        | nil => rw [hit] at hlen2; simp at hlen2; omega
        | cons a l => rfl
      rw [dif_neg (by simp [hne'])]
      rw [if_pos (by omega : items.length < page_size)]
      refine ⟨?_, ?_, ?_⟩
      · have hall : items = L.drop cursor := by
          rw [hitems]
          apply List.take_of_length_le
          rw [hdropLen]
          omega
        rw [hall]
      · rw [Nat.div_eq_of_lt hshort]
        rfl
      · intro q hq
        simp only [List.mem_singleton] at hq
        subst hq
        exact hcN
    · have hge : page_size ≤ L.length - cursor := by omega
      have hgt : page_size < L.length - cursor := by
        rcases Nat.lt_or_ge page_size (L.length - cursor) with h | h
        · exact h
        · have heq : L.length - cursor = page_size := by omega
          rw [heq] at hmod
          exact absurd (Nat.mod_self page_size) hmod
      have hminp : min page_size (limit - cursor) = page_size := by omega
      have hlenp : items.length = page_size := by omega
      have hne' : items.isEmpty = false := by
        cases hit : items with
        | nil => rw [hit] at hlenp; simp at hlenp; omega
        | cons a l => rfl
      rw [dif_neg (by simp [hne'])]
      rw [if_neg (by omega : ¬items.length < page_size)]
      rw [hlenp]
      have hmod' : (L.length - (cursor + page_size)) % page_size ≠ 0 := by
        have hsub := Nat.mod_eq_sub_mod (a := L.length - cursor) (b := page_size) hge
        rw [show L.length - cursor - page_size = L.length - (cursor + page_size)
          from by omega] at hsub
        rw [← hsub]
        exact hmod
      obtain ⟨ihy, ihr, ihq⟩ := ih (L.length - (cursor + page_size)) (by omega)
        (cursor + page_size) rfl hmod'
      refine ⟨?_, ?_, ?_⟩
      · dsimp only
        rw [ihy, ← List.map_append]
        congr 1
        rw [hitems, hminp]
        rw [← List.drop_drop]
        exact List.take_append_drop page_size (L.drop cursor)
      · dsimp only
        rw [List.length_cons, ihr]
        have hdiv := Nat.div_eq_sub_div hp hge
        rw [show L.length - cursor - page_size = L.length - (cursor + page_size)
          from by omega] at hdiv
        rw [hdiv]
      · intro q hq
        dsimp only at hq
        rcases List.mem_cons.mp hq with h | h
        · subst h
          exact hcN
        · exact ihq q h
  intro cursor hmod
  exact main (L.length - cursor) cursor rfl hmod

/-- C6: the offset-paged chemrxiv loop, run against a source holding a
fixed catalogue `L` that serves full `page_size` pages until a final
shorter page (`L.length % page_size ≠ 0`), yields every catalogue record
exactly once (the sum of all page sizes), issues exactly
`L.length / page_size + 1` page requests, and issues no request beyond the
final short page (every request's offset lies inside the catalogue); the
loop itself is a total function of the response sequence and so terminates
for every server. -/
theorem chemrxiv_fetch_papers_spec {α β : Type} (parse : α → β) (L : List α)
    (limit page_size : Nat) (hp : 0 < page_size) (hlim : L.length ≤ limit)
    (hmod : L.length % page_size ≠ 0) :
    (ChemrxivFetcher.fetch_papers parse (takeDropServer L) limit page_size
      0).yielded = L.map parse ∧
    (ChemrxivFetcher.fetch_papers parse (takeDropServer L) limit page_size
      0).requests.length = L.length / page_size + 1 ∧
    ∀ q ∈ (ChemrxivFetcher.fetch_papers parse (takeDropServer L) limit page_size
      0).requests, q.2 < L.length := by
  have h := chemrxivFetchAux_spec parse L limit page_size hp hlim 0
    (by simpa using hmod)
  simpa using h

/-- Witness for C6: a catalogue of 5 items at `page_size = 2`,
`limit = 10` — two full pages, one final short page, 3 requests. -/
theorem chemrxiv_fetch_papers_spec_witness :
    0 < 2 ∧ ([0, 1, 2, 3, 4] : List Nat).length ≤ 10 ∧
    ([0, 1, 2, 3, 4] : List Nat).length % 2 ≠ 0 ∧
    ((ChemrxivFetcher.fetch_papers id (takeDropServer ([0, 1, 2, 3, 4] : List Nat))
      10 2 0).yielded = ([0, 1, 2, 3, 4] : List Nat).map id ∧
    (ChemrxivFetcher.fetch_papers id (takeDropServer ([0, 1, 2, 3, 4] : List Nat))
      10 2 0).requests.length = ([0, 1, 2, 3, 4] : List Nat).length / 2 + 1 ∧
    ∀ q ∈ (ChemrxivFetcher.fetch_papers id (takeDropServer ([0, 1, 2, 3, 4] : List Nat))
      10 2 0).requests, q.2 < ([0, 1, 2, 3, 4] : List Nat).length) :=
  ⟨by decide, by decide, by decide,
    chemrxiv_fetch_papers_spec id [0, 1, 2, 3, 4] 10 2 (by decide) (by decide)
      (by decide)⟩

/-- C7: if a cursor-paged response carries no `"cursor_value"`-typed entry
in `messages`, the stream ends right after emitting every item of that
page's `collection` — even a non-empty one — with no further page request
(exactly the one request that fetched this page), treated as end of stream
rather than an error; and a page with an empty `collection` likewise ends
the stream. -/
theorem biorxiv_fetch_papers_spec {α β : Type} (parse : α → β)
    (page : BiorxivPage α) (rest : List (Except Unit (BiorxivPage α)))
    (hc : hasCursorMsg page.messages = false) :
    BiorxivFetcher.fetch_papers parse (Except.ok page :: rest) =
      ⟨page.collection.map parse, 1⟩ ∧
    ∀ (page' : BiorxivPage α) (rest' : List (Except Unit (BiorxivPage α))),
      page'.collection = [] →
      BiorxivFetcher.fetch_papers parse (Except.ok page' :: rest') = ⟨[], 1⟩ := by
  constructor
  · rw [BiorxivFetcher.fetch_papers]
    by_cases hemp : page.collection.isEmpty
    · rw [if_pos hemp]
      have h0 : page.collection = [] := by
        cases hcoll : page.collection with
        | nil => rfl
        | cons a l => rw [hcoll] at hemp; simp at hemp
      rw [h0]
      rfl
    · rw [if_neg hemp, if_neg (by simp [hc])]
  · intro page' rest' h0
    rw [BiorxivFetcher.fetch_papers, if_pos (by simp [h0])]

/-- Witness for C7: a non-empty page whose messages carry no cursor entry
ends the stream with its two items after a single request, although a
further page was available. -/
theorem biorxiv_fetch_papers_spec_witness :
    hasCursorMsg (BiorxivPage.mk ([1, 2] : List Nat) [Msg.mk "ok" 7]).messages = false ∧
    (BiorxivFetcher.fetch_papers id
      (Except.ok (BiorxivPage.mk ([1, 2] : List Nat) [Msg.mk "ok" 7]) ::
        [Except.ok (BiorxivPage.mk ([3] : List Nat) [Msg.mk "cursor_value" 5])]) =
      ⟨(BiorxivPage.mk ([1, 2] : List Nat) [Msg.mk "ok" 7]).collection.map id, 1⟩ ∧
    ∀ (page' : BiorxivPage Nat) (rest' : List (Except Unit (BiorxivPage Nat))),
      page'.collection = [] →
      BiorxivFetcher.fetch_papers id (Except.ok page' :: rest') = ⟨[], 1⟩) :=
  ⟨by decide,
   biorxiv_fetch_papers_spec id (BiorxivPage.mk ([1, 2] : List Nat) [Msg.mk "ok" 7])
     [Except.ok (BiorxivPage.mk ([3] : List Nat) [Msg.mk "cursor_value" 5])]
     (by decide)⟩

theorem evalFilter_query_filter (matchText dateLe : String → String → Bool)
    (args : QueryArgs) (r : PaperMetadata) :
    evalFilter matchText dateLe r (query_filter args) =
      (must_conditions args).all (evalCond matchText dateLe r) := by
  cases hmc : must_conditions args with
  | nil => simp [query_filter, evalFilter, hmc]
  | cons c cs => simp [query_filter, evalFilter, hmc]

theorem all_ite_singleton (q : FieldCond → Bool) (b : Prop) [Decidable b]
    (c : FieldCond) :
    (if b then [c] else []).all q = if b then q c else true := by
  by_cases h : b <;> simp [h]

theorem all_range_cond (matchText dateLe : String → String → Bool)
    (r : PaperMetadata) (minD maxD : Option String) :
    (if strOptTruthy minD || strOptTruthy maxD then
      [FieldCond.updateDateRange
        (if strOptTruthy minD then minD else none)
        (if strOptTruthy maxD then maxD else none)]
     else []).all (evalCond matchText dateLe r) =
    ((if strOptTruthy minD then dateLe (minD.getD "") r.update_date else true) &&
     (if strOptTruthy maxD then dateLe r.update_date (maxD.getD "") else true)) := by
  rcases minD with _ | s
  · rcases maxD with _ | t
    · simp [strOptTruthy, evalCond]
    · cases ht : (t != "") <;> simp [strOptTruthy, evalCond, ht]
  · rcases maxD with _ | t
    · cases hs : (s != "") <;> simp [strOptTruthy, evalCond, hs]
    · cases hs : (s != "") <;> cases ht : (t != "") <;>
        simp [strOptTruthy, evalCond, hs, ht]

/-- C8: the filter `query` builds matches a record exactly when the
conjunction of the conditions of the supplied (truthy) constraints holds —
no condition for an omitted constraint, no filter at all when none is
supplied — and, in particular, with `authors="Smith"` and
`min_update_date="2024-01-01"` it requires both the full-text authors
match and `update_date >= 2024-01-01`, never either alone. -/
theorem query_conjunction_spec (matchText dateLe : String → String → Bool)
    (args : QueryArgs) (r : PaperMetadata) :
    evalFilter matchText dateLe r (query_filter args) =
      suppliedConj matchText dateLe args r ∧
    (must_conditions args = [] → query_filter args = none) ∧
    evalFilter matchText dateLe r (query_filter
      ⟨none, none, some "Smith", none, none, some "2024-01-01", none, none,
        none, none⟩) =
      (matchText r.authors "Smith" && dateLe "2024-01-01" r.update_date) := by
  refine ⟨?_, ?_, ?_⟩
  · rw [evalFilter_query_filter]
    simp only [must_conditions, suppliedConj, List.all_append, all_ite_singleton,
      evalCond, Bool.and_assoc]
    rcases hmin : args.min_update_date with _ | s
    · rcases hmax : args.max_update_date with _ | t
      · simp [hmin, hmax, strOptTruthy, Bool.and_assoc]
      · cases ht : (t != "") <;> simp [hmin, hmax, strOptTruthy, ht, Bool.and_assoc]
    · rcases hmax : args.max_update_date with _ | t
      · cases hs : (s != "") <;> simp [hmin, hmax, strOptTruthy, hs, Bool.and_assoc]
      · cases hs : (s != "") <;> cases ht : (t != "") <;>
          simp [hmin, hmax, strOptTruthy, hs, ht, Bool.and_assoc]
  · intro h
    simp [query_filter, h]
  · rw [evalFilter_query_filter]
    simp [must_conditions, evalCond, strOptTruthy, listOptTruthy]

/-- Witness for C8: with no constraint supplied, no conditions are built
and no filter is produced. -/
theorem query_conjunction_spec_witness :
    must_conditions emptyQueryArgs = [] ∧ query_filter emptyQueryArgs = none :=
  ⟨by decide,
   (query_conjunction_spec (fun _ _ => true) (fun _ _ => true) emptyQueryArgs
     (arxivSample "p" "2023-01-01")).2.1 (by decide)⟩

/-- C10: the legacy alias parameters silently override the canonical
ones — with a truthy `arxiv_id`, the built conditions are independent of
the `paper_id` argument and carry a `paper_id` match on the `arxiv_id`
value; likewise a truthy `arxiv_categories` replaces the `categories`
argument in the match-any condition. -/
theorem query_alias_override_spec :
    (∀ (args : QueryArgs) (a : String), a ≠ "" → ∀ p₁ p₂ : Option String,
      must_conditions { args with arxiv_id := some a, paper_id := p₁ } =
        must_conditions { args with arxiv_id := some a, paper_id := p₂ } ∧
      FieldCond.paperIdEq a ∈
        must_conditions { args with arxiv_id := some a, paper_id := p₁ }) ∧
    (∀ (args : QueryArgs) (cs : List String), cs ≠ [] →
      ∀ c₁ c₂ : Option (List String),
      must_conditions { args with arxiv_categories := some cs, categories := c₁ } =
        must_conditions { args with arxiv_categories := some cs, categories := c₂ } ∧
      FieldCond.categoriesAny cs ∈
        must_conditions { args with arxiv_categories := some cs, categories := c₁ }) := by
  constructor
  · intro args a ha p₁ p₂
    have htr : strOptTruthy (some a) = true := by simp [strOptTruthy, ha]
    constructor
    · simp [must_conditions, htr]
    · simp [must_conditions, htr]
  · intro args cs hcs c₁ c₂
    have htr : listOptTruthy (some cs) = true := by
      cases cs with
      | nil => exact absurd rfl hcs
      | cons x xs => rfl
    constructor
    · simp [must_conditions, htr]
    · simp [must_conditions, htr]

/-- Witness for C10 at concrete alias values. -/
theorem query_alias_override_spec_witness :
    ("2301.00001" : String) ≠ "" ∧ (["cs.CL"] : List String) ≠ [] ∧
    (must_conditions { emptyQueryArgs with arxiv_id := some "2301.00001", paper_id := some "zzz" } =
      must_conditions { emptyQueryArgs with arxiv_id := some "2301.00001", paper_id := none } ∧
     FieldCond.paperIdEq "2301.00001" ∈
       must_conditions { emptyQueryArgs with arxiv_id := some "2301.00001", paper_id := some "zzz" }) ∧
    (must_conditions { emptyQueryArgs with arxiv_categories := some ["cs.CL"], categories := some ["bio"] } =
      must_conditions { emptyQueryArgs with arxiv_categories := some ["cs.CL"], categories := none } ∧
     FieldCond.categoriesAny ["cs.CL"] ∈
       must_conditions { emptyQueryArgs with arxiv_categories := some ["cs.CL"], categories := some ["bio"] }) :=
  ⟨by decide, by decide,
   query_alias_override_spec.1 emptyQueryArgs "2301.00001" (by decide)
     (some "zzz") none,
   query_alias_override_spec.2 emptyQueryArgs ["cs.CL"] (by decide)
     (some ["bio"]) none⟩

/-- C9 counterexample: invoking `index` with source `"biorxiv"` and no
dates does raise the ValueError before any fetch, but only after
`_ensure_collection` has already issued its requests to the vector store —
so a network call does precede the rejection, contrary to the claim as
stated. -/
theorem index_validation_counterexample :
    (index "biorxiv" none none none none 10000).2 =
      Except.error "biorxiv requires start_date and end_date (YYYY-MM-DD)" ∧
    (index "biorxiv" none none none none 10000).1.any isNetworkStep = true :=
  ⟨rfl, rfl⟩

/-- C9 (amended): invoking `index` with source `"biorxiv"` or `"medrxiv"`
while `start_date` or `end_date` is missing raises a ValueError before any
fetcher is constructed and before any fetch or upsert; a source outside
the four known values likewise raises a ValueError with no fetch or
upsert. (The embedder initialization and the collection-ensure calls to
the vector store do run first.) -/
theorem index_validation_spec (start_date end_date q c : Option String)
    (m : Nat) :
    (∀ server : String, server = "biorxiv" ∨ server = "medrxiv" →
      strOptTruthy start_date = false ∨ strOptTruthy end_date = false →
      (index server start_date end_date q c m).2 =
        Except.error (server ++ " requires start_date and end_date (YYYY-MM-DD)") ∧
      ∀ a ∈ (index server start_date end_date q c m).1, isProcessStep a = false) ∧
    (∀ src : String, src ≠ "arxiv" → src ≠ "biorxiv" → src ≠ "medrxiv" →
      src ≠ "chemrxiv" →
      (index src start_date end_date q c m).2 =
        Except.error ("Unknown source: " ++ src) ∧
      ∀ a ∈ (index src start_date end_date q c m).1, isProcessStep a = false) := by
  constructor
  · intro server hsv hdate
    rcases hsv with rfl | rfl <;> rcases hdate with h | h <;>
      exact ⟨by simp [index, h], by simp [index, h]; exact ⟨rfl, rfl, rfl⟩⟩
  · intro src h1 h2 h3 h4
    refine ⟨?_, ?_⟩
    · simp [index, beq_iff_eq, h1, h2, h3, h4]
    · simp only [index, beq_iff_eq]
      rw [if_neg h1, if_neg h2, if_neg h3, if_neg h4]
      dsimp only
      decide

/-- Witness for C9 at `"biorxiv"` with both dates missing and at the
unknown source `"gopher"`. -/
theorem index_validation_spec_witness :
    (("biorxiv" : String) = "biorxiv" ∨ ("biorxiv" : String) = "medrxiv") ∧
    (strOptTruthy none = false ∨ strOptTruthy none = false) ∧
    ((index "biorxiv" none none none none 10000).2 =
      Except.error ("biorxiv" ++ " requires start_date and end_date (YYYY-MM-DD)") ∧
     ∀ a ∈ (index "biorxiv" none none none none 10000).1, isProcessStep a = false) ∧
    ("gopher" : String) ≠ "arxiv" ∧ ("gopher" : String) ≠ "biorxiv" ∧
    ("gopher" : String) ≠ "medrxiv" ∧ ("gopher" : String) ≠ "chemrxiv" ∧
    ((index "gopher" none none none none 10000).2 =
      Except.error ("Unknown source: " ++ "gopher") ∧
     ∀ a ∈ (index "gopher" none none none none 10000).1, isProcessStep a = false) := by
  have H := index_validation_spec none none none none 10000
  exact ⟨Or.inl rfl, Or.inl rfl, H.1 "biorxiv" (Or.inl rfl) (Or.inl rfl),
    by decide, by decide, by decide, by decide,
    H.2 "gopher" (by decide) (by decide) (by decide) (by decide)⟩

end PaperIndexer
